import Mathlib

/-!
Verification of the go-imsg message codec: a shallow embedding of the
IMsg data type, its binary encoder (MarshalBinary), stream decoder
(ReadIMsg), buffer decoder (UnmarshalBinary) and validating constructor
(ComposeIMsg), together with proofs of the specified properties.

Bytes are modelled as natural numbers below 256; a byte source is a list
of bytes read with the semantics of a reader over an in-memory buffer
(a read returns as many of the requested bytes as remain, and reports
end-of-stream when none remain). Machine integers are naturals with
explicit reduction modulo 2^16 or 2^32 at the points where the code
converts.
-/

namespace GoImsg

/-- Decidable equality of Except results, for concrete evaluation of
codec outcomes. -/
instance exceptDecidableEq {ε α : Type} [DecidableEq ε] [DecidableEq α] :
    DecidableEq (Except ε α) := fun x y =>
  match x, y with
  | .error a, .error b =>
    if h : a = b then .isTrue (by rw [h]) else .isFalse (by simp [h])
  | .error _, .ok _ => .isFalse (by simp)
  | .ok _, .error _ => .isFalse (by simp)
  | .ok a, .ok b =>
    if h : a = b then .isTrue (by rw [h]) else .isFalse (by simp [h])

/-- Byte order resolved once at start-up by the endianness probe. -/
inductive ByteOrder where
  | little
  | big
deriving DecidableEq

/-- Size in bytes of the fixed-length header that prepends each imsg. -/
def HeaderSizeInBytes : Nat := 16

/-- Maximum allowed size in bytes of a single imsg. -/
def MaxSizeInBytes : Nat := 16384

/-- Serialization of a 16-bit unsigned integer into two bytes in the
given byte order; an argument of 2^16 or more is reduced as the uint16
conversion would reduce it. -/
def putUInt16 : ByteOrder → Nat → List Nat
  | .little, x => [x % 256, x / 256 % 256]
  | .big, x => [x / 256 % 256, x % 256]

/-- Serialization of a 32-bit unsigned integer into four bytes in the
given byte order. -/
def putUInt32 : ByteOrder → Nat → List Nat
  | .little, x => [x % 256, x / 256 % 256, x / 65536 % 256, x / 16777216 % 256]
  | .big, x => [x / 16777216 % 256, x / 65536 % 256, x / 256 % 256, x % 256]

/-- Deserialization of a 16-bit unsigned integer from two bytes. -/
def getUInt16 : ByteOrder → Nat → Nat → Nat
  | .little, b0, b1 => b0 + 256 * b1
  | .big, b0, b1 => 256 * b0 + b1

/-- Deserialization of a 32-bit unsigned integer from four bytes. -/
def getUInt32 : ByteOrder → Nat → Nat → Nat → Nat → Nat
  | .little, b0, b1, b2, b3 => b0 + 256 * b1 + 65536 * b2 + 16777216 * b3
  | .big, b0, b1, b2, b3 => 16777216 * b0 + 65536 * b1 + 256 * b2 + b3

/-- The fixed-size header used to simplify marshaling and unmarshaling
(struct imsgHeader): type, length, flags, peer id, process id. -/
structure imsgHeader where
  typ : Nat
  Length : Nat
  Flags : Nat
  PeerID : Nat
  PID : Nat
deriving DecidableEq

/-- An IMsg: message type, peer id, process id, ancillary data, and the
internal flags field. -/
structure IMsg where
  typ : Nat
  PeerID : Nat
  PID : Nat
  Data : List Nat
  flags : Nat
deriving DecidableEq

/-- Failures of the underlying byte source: end-of-stream with nothing
read, or end-of-stream after a partial read (io.ErrUnexpectedEOF). -/
inductive StreamError where
  | eof
  | unexpectedEOF
deriving DecidableEq

/-- The error taxonomy of the package: ErrDataTooLarge, i.e.
ErrLengthOutOfBounds and ErrInsufficientData with their diagnostic
fields, plus pass-through failures of the underlying byte source. -/
inductive IMsgError where
  | errDataTooLarge (dataLengthInBytes : Nat) (maxLengthInBytes : Nat)
  | errLengthOutOfBounds (lengthInBytes : Nat) (minLengthInBytes : Nat) (maxLengthInBytes : Nat)
  | errInsufficientData (expectedBytes : Nat) (readBytes : Nat)
  | streamFailure (e : StreamError)
deriving DecidableEq

/-- Whether an error is an ErrInsufficientData value. -/
def IMsgError.isInsufficientData : IMsgError → Bool
  | .errInsufficientData _ _ => true
  | _ => false

/-- Serialization of the fixed-size header: the five fields in order,
each in the given byte order (what binary.Write emits for imsgHeader). -/
def putHeader (bo : ByteOrder) (h : imsgHeader) : List Nat :=
  putUInt32 bo h.typ ++ putUInt16 bo h.Length ++ putUInt16 bo h.Flags ++
    putUInt32 bo h.PeerID ++ putUInt32 bo h.PID

/-- Deserialization of the fixed-size header from the first sixteen
bytes of a list (what binary.Read fills into an imsgHeader). -/
def parseHeader (bo : ByteOrder) (bs : List Nat) : imsgHeader :=
  { typ := getUInt32 bo (bs.getD 0 0) (bs.getD 1 0) (bs.getD 2 0) (bs.getD 3 0)
    Length := getUInt16 bo (bs.getD 4 0) (bs.getD 5 0)
    Flags := getUInt16 bo (bs.getD 6 0) (bs.getD 7 0)
    PeerID := getUInt32 bo (bs.getD 8 0) (bs.getD 9 0) (bs.getD 10 0) (bs.getD 11 0)
    PID := getUInt32 bo (bs.getD 12 0) (bs.getD 13 0) (bs.getD 14 0) (bs.getD 15 0) }

/-- Reading exactly n bytes from the source (io.ReadFull, as binary.Read
performs it): succeeds with the bytes and the remainder when n bytes are
present; fails with end-of-stream when nothing is present, and with
unexpected end-of-stream after a partial read. -/
def readFull (src : List Nat) (n : Nat) : Except StreamError (List Nat × List Nat) :=
  if n ≤ src.length then .ok (src.take n, src.drop n)
  else if src.length = 0 then .error .eof
  else .error .unexpectedEOF

/-- A single Read call on a buffer-backed reader with want bytes
requested: end-of-stream when the buffer is exhausted, otherwise the
number of bytes delivered (as many as remain, capped at want) together
with those bytes. -/
def readerRead (rest : List Nat) (want : Nat) : Except StreamError (Nat × List Nat) :=
  if rest.length = 0 then .error .eof
  else .ok (min want rest.length, rest.take want)

/-- Size in bytes of the imsg (method Len): data length plus header size. -/
def IMsg.Len (im : IMsg) : Nat :=
  im.Data.length + HeaderSizeInBytes

/-- MarshalBinary: reject an imsg longer than the maximum with
ErrDataTooLarge, otherwise emit the header followed by the data. -/
def IMsg.MarshalBinary (bo : ByteOrder) (im : IMsg) : Except IMsgError (List Nat) :=
  if im.Len > MaxSizeInBytes then
    .error (.errDataTooLarge im.Data.length (MaxSizeInBytes - HeaderSizeInBytes))
  else
    let hdr : imsgHeader :=
      { typ := im.typ
        Length := im.Len % 65536
        Flags := im.flags
        PeerID := im.PeerID
        PID := im.PID }
    .ok (putHeader bo hdr ++ im.Data)

/-- ReadIMsg: read and decode the fixed header, validate the length
field, then read the data when the length exceeds the header size. -/
def ReadIMsg (bo : ByteOrder) (src : List Nat) : Except IMsgError IMsg :=
  match readFull src HeaderSizeInBytes with
  | .error e => .error (.streamFailure e)
  | .ok (hdrBytes, rest) =>
    let hdr := parseHeader bo hdrBytes
    if hdr.Length < HeaderSizeInBytes ∨ hdr.Length > MaxSizeInBytes then
      .error (.errLengthOutOfBounds hdr.Length HeaderSizeInBytes MaxSizeInBytes)
    else if hdr.Length > HeaderSizeInBytes then
      match readerRead rest (hdr.Length - HeaderSizeInBytes) with
      | .error e => .error (.streamFailure e)
      | .ok (n, chunk) =>
        if n ≠ hdr.Length - HeaderSizeInBytes then
          .error (.errInsufficientData (hdr.Length - HeaderSizeInBytes) n)
        else
          .ok { typ := hdr.typ, PeerID := hdr.PeerID, PID := hdr.PID,
                Data := chunk, flags := hdr.Flags }
    else
      .ok { typ := hdr.typ, PeerID := hdr.PeerID, PID := hdr.PID,
            Data := [], flags := hdr.Flags }

/-- UnmarshalBinary: decode a complete in-memory buffer by reading it
through ReadIMsg and copying the fields into the receiver. -/
def IMsg.UnmarshalBinary (bo : ByteOrder) (im : IMsg) (data : List Nat) :
    Except IMsgError IMsg :=
  match ReadIMsg bo data with
  | .error err => .error err
  | .ok im2 =>
    .ok { typ := im2.typ, PeerID := im2.PeerID, PID := im2.PID,
          Data := im2.Data, flags := im2.flags }

/-- ComposeIMsg: validate the data length, then build the imsg with zero
flags and the process id of the calling process (os.Getpid is modelled
as the argument getpid, reduced as the uint32 conversion reduces it). -/
def ComposeIMsg (getpid : Nat) (typ peerID : Nat) (data : List Nat) :
    Except IMsgError IMsg :=
  if data.length > MaxSizeInBytes - HeaderSizeInBytes then
    .error (.errDataTooLarge data.length (MaxSizeInBytes - HeaderSizeInBytes))
  else
    .ok { typ := typ, PeerID := peerID, PID := getpid % 4294967296,
          Data := data, flags := 0 }

/-!
General lemmas about the serialization primitives, shared by the proofs
below.
-/

/-- Two bytes are emitted for a 16-bit integer. -/
theorem putUInt16_length (bo : ByteOrder) (x : Nat) : (putUInt16 bo x).length = 2 := by
  cases bo <;> simp [putUInt16]

/-- Four bytes are emitted for a 32-bit integer. -/
theorem putUInt32_length (bo : ByteOrder) (x : Nat) : (putUInt32 bo x).length = 4 := by
  cases bo <;> simp [putUInt32]

/-- Sixteen bytes are emitted for the fixed-size header. -/
theorem putHeader_length (bo : ByteOrder) (h : imsgHeader) :
    (putHeader bo h).length = 16 := by
  cases bo <;> simp [putHeader, putUInt16, putUInt32]

/-- Reading exactly the length of the first part of a concatenation
yields that part and leaves the rest. -/
theorem readFull_exact (l r : List Nat) (n : Nat) (h : l.length = n) :
    readFull (l ++ r) n = .ok (l, r) := by
  rw [readFull, if_pos (by simp [h])]
  subst h
  rw [List.take_left, List.drop_left]

/-- Header deserialization inverts header serialization when every field
is within the range of its machine-integer type. -/
theorem parseHeader_putHeader (bo : ByteOrder) (h : imsgHeader)
    (hT : h.typ < 4294967296) (hL : h.Length < 65536) (hF : h.Flags < 65536)
    (hPeer : h.PeerID < 4294967296) (hPID : h.PID < 4294967296) :
    parseHeader bo (putHeader bo h) = h := by
  obtain ⟨t, L, f, peer, pid⟩ := h
  simp only at hT hL hF hPeer hPID
  cases bo <;>
    simp [parseHeader, putHeader, putUInt16, putUInt32, getUInt16, getUInt32, List.getD] <;>
    omega

/-- C1: for every message whose payload is at most 16368 bytes and whose
fields are within the range of their machine-integer types, MarshalBinary
succeeds and ReadIMsg applied to the produced bytes under the same byte
order returns a message equal to the original in every field, the flags
and the payload included. -/
theorem marshal_read_roundtrip (bo : ByteOrder) (im : IMsg)
    (hT : im.typ < 4294967296) (hPeer : im.PeerID < 4294967296)
    (hPID : im.PID < 4294967296) (hF : im.flags < 65536)
    (hLen : im.Data.length ≤ 16368) :
    ∃ bs, im.MarshalBinary bo = .ok bs ∧ ReadIMsg bo bs = .ok im := by
  obtain ⟨t, peer, pid, d, f⟩ := im
  simp only at hT hPeer hPID hF hLen
  refine ⟨putHeader bo ⟨t, d.length + 16, f, peer, pid⟩ ++ d, ?_, ?_⟩
  · simp only [IMsg.MarshalBinary, IMsg.Len, MaxSizeInBytes, HeaderSizeInBytes]
    rw [if_neg (by simp; omega)]
    rw [Nat.mod_eq_of_lt (show d.length + 16 < 65536 by omega)]
  · simp only [ReadIMsg, HeaderSizeInBytes, MaxSizeInBytes]
    rw [readFull_exact _ _ _ (putHeader_length bo _)]
    dsimp only
    rw [parseHeader_putHeader bo _ hT (show d.length + 16 < 65536 by omega) hF hPeer hPID]
    dsimp only
    rw [if_neg (by omega)]
    rcases d with _ | ⟨b, d2⟩
    · rw [if_neg (by simp)]
    · rw [if_pos (by rw [List.length_cons]; omega)]
      simp [readerRead]

/-- Witness for C1: a round trip of a concrete message with a nonzero
flags field and a nonempty payload. -/
theorem marshal_read_roundtrip_witness :
    ∃ bs, IMsg.MarshalBinary .little ⟨1, 2, 3, [9, 8], 4⟩ = .ok bs ∧
      ReadIMsg .little bs = .ok ⟨1, 2, 3, [9, 8], 4⟩ :=
  marshal_read_roundtrip .little ⟨1, 2, 3, [9, 8], 4⟩ (by decide) (by decide) (by decide)
    (by decide) (by decide)

/-- C2: for every message of total length at most the maximum,
MarshalBinary succeeds and returns exactly Len bytes, laid out as the
type at offset 0, the total length at offset 4, the flags at offset 6,
the peer id at offset 8, the process id at offset 12 and the raw payload
from offset 16 on, with nothing else. -/
theorem marshal_layout (bo : ByteOrder) (im : IMsg) (h : im.Len ≤ MaxSizeInBytes) :
    ∃ bs, im.MarshalBinary bo = .ok bs ∧
      bs.length = im.Len ∧
      bs.take 4 = putUInt32 bo im.typ ∧
      (bs.drop 4).take 2 = putUInt16 bo im.Len ∧
      (bs.drop 6).take 2 = putUInt16 bo im.flags ∧
      (bs.drop 8).take 4 = putUInt32 bo im.PeerID ∧
      (bs.drop 12).take 4 = putUInt32 bo im.PID ∧
      bs.drop 16 = im.Data := by
  obtain ⟨t, peer, pid, d, f⟩ := im
  simp only [IMsg.Len, MaxSizeInBytes, HeaderSizeInBytes] at h ⊢
  refine ⟨putHeader bo ⟨t, d.length + 16, f, peer, pid⟩ ++ d, ?_, ?_⟩
  · simp only [IMsg.MarshalBinary, IMsg.Len, MaxSizeInBytes, HeaderSizeInBytes]
    rw [if_neg (by simp; omega)]
    rw [Nat.mod_eq_of_lt (show d.length + 16 < 65536 by omega)]
  · cases bo <;> simp [putHeader, putUInt16, putUInt32]

/-- Witness for C2: the layout of a concrete big-endian encoding. -/
theorem marshal_layout_witness :
    ∃ bs, IMsg.MarshalBinary .big ⟨5, 6, 7, [1, 2, 3], 8⟩ = .ok bs ∧
      bs.length = IMsg.Len ⟨5, 6, 7, [1, 2, 3], 8⟩ ∧
      bs.take 4 = putUInt32 .big 5 ∧
      (bs.drop 4).take 2 = putUInt16 .big (IMsg.Len ⟨5, 6, 7, [1, 2, 3], 8⟩) ∧
      (bs.drop 6).take 2 = putUInt16 .big 8 ∧
      (bs.drop 8).take 4 = putUInt32 .big 6 ∧
      (bs.drop 12).take 4 = putUInt32 .big 7 ∧
      bs.drop 16 = [1, 2, 3] :=
  marshal_layout .big ⟨5, 6, 7, [1, 2, 3], 8⟩ (by decide)

/-- C3: for every message whose payload exceeds 16368 bytes,
MarshalBinary fails with ErrDataTooLarge carrying the observed payload
length and the limit 16368, and returns no bytes. -/
theorem marshal_oversize (bo : ByteOrder) (im : IMsg) (h : im.Data.length > 16368) :
    im.MarshalBinary bo = .error (.errDataTooLarge im.Data.length 16368) := by
  simp only [IMsg.MarshalBinary, IMsg.Len, MaxSizeInBytes, HeaderSizeInBytes]
  rw [if_pos (by omega)]

/-- Witness for C3: a payload of 16369 zero bytes is rejected. -/
theorem marshal_oversize_witness :
    IMsg.MarshalBinary .little ⟨0, 0, 0, List.replicate 16369 0, 0⟩ =
      .error (.errDataTooLarge 16369 16368) := by
  have h := marshal_oversize .little ⟨0, 0, 0, List.replicate 16369 0, 0⟩
    (by simp only [List.length_replicate]; norm_num)
  simpa only [List.length_replicate] using h

/-- C4: for every source whose sixteen header bytes decode to a length
field below the header size or above the maximum size, ReadIMsg fails
with ErrLengthOutOfBounds carrying the observed value and both bounds,
whatever bytes follow the header: no payload byte is consumed. -/
theorem read_length_out_of_bounds (bo : ByteOrder) (hdrBytes rest : List Nat)
    (hlen : hdrBytes.length = 16)
    (hoob : (parseHeader bo hdrBytes).Length < HeaderSizeInBytes ∨
            (parseHeader bo hdrBytes).Length > MaxSizeInBytes) :
    ReadIMsg bo (hdrBytes ++ rest) =
      .error (.errLengthOutOfBounds (parseHeader bo hdrBytes).Length
        HeaderSizeInBytes MaxSizeInBytes) := by
  simp only [HeaderSizeInBytes, MaxSizeInBytes] at hoob ⊢
  simp only [ReadIMsg, HeaderSizeInBytes, MaxSizeInBytes]
  rw [readFull_exact _ _ _ hlen]
  dsimp only
  rw [if_pos hoob]

/-- Witness for C4: a header with length field zero is rejected with the
bounds 16 and 16384 even though further bytes are available. -/
theorem read_length_out_of_bounds_witness :
    ReadIMsg .little [0, 0, 0, 0, 0, 0, 0, 0, 0, 0, 0, 0, 0, 0, 0, 0, 1, 2, 3] =
      .error (.errLengthOutOfBounds 0 16 16384) := by
  have h := read_length_out_of_bounds .little
    [0, 0, 0, 0, 0, 0, 0, 0, 0, 0, 0, 0, 0, 0, 0, 0] [1, 2, 3]
    (by decide) (by decide)
  simpa [parseHeader, getUInt16, HeaderSizeInBytes, MaxSizeInBytes] using h

/-- C5, counterexample to the claim as stated: a header announcing one
payload byte followed by no payload byte at all makes ReadIMsg fail with
the reader's end-of-stream failure, which is not an ErrInsufficientData
value. -/
theorem read_no_payload_bytes_is_eof :
    ReadIMsg .little [0, 0, 0, 0, 17, 0, 0, 0, 0, 0, 0, 0, 0, 0, 0, 0] =
      .error (.streamFailure .eof) ∧
    IMsgError.isInsufficientData (.streamFailure .eof) = false := by
  constructor
  · decide
  · decide

/-- C5, amended: when the length field announces N payload bytes with
the length check passing and at least one but fewer than N payload bytes
follow the header, ReadIMsg fails with ErrInsufficientData carrying the
expected count N and the count actually read. -/
theorem read_short_payload (bo : ByteOrder) (hdrBytes payload : List Nat) (N : Nat)
    (hlen : hdrBytes.length = 16)
    (hL : (parseHeader bo hdrBytes).Length = 16 + N)
    (hmax : 16 + N ≤ 16384)
    (hpos : 0 < payload.length)
    (hshort : payload.length < N) :
    ReadIMsg bo (hdrBytes ++ payload) =
      .error (.errInsufficientData N payload.length) := by
  simp only [ReadIMsg, HeaderSizeInBytes, MaxSizeInBytes]
  rw [readFull_exact _ _ _ hlen]
  dsimp only
  rw [hL]
  rw [if_neg (by omega), if_pos (by omega)]
  rw [show 16 + N - 16 = N by omega]
  simp only [readerRead]
  rw [if_neg (by omega)]
  dsimp only
  rw [show min N payload.length = payload.length by omega]
  rw [if_pos (by omega)]

/-- Witness for the amended C5: a header announcing two payload bytes
followed by a single byte yields ErrInsufficientData with expected 2 and
read 1. -/
theorem read_short_payload_witness :
    ReadIMsg .little [0, 0, 0, 0, 18, 0, 0, 0, 0, 0, 0, 0, 0, 0, 0, 0, 5] =
      .error (.errInsufficientData 2 1) := by
  have h := read_short_payload .little
    [0, 0, 0, 0, 18, 0, 0, 0, 0, 0, 0, 0, 0, 0, 0, 0] [5] 2
    (by decide) (by decide) (by decide) (by decide) (by decide)
  simpa using h

/-- C6: ComposeIMsg accepts any payload of at most 16368 bytes and
returns a message with the given type and peer id, zero flags, the
calling process id, and the given payload; a longer payload is rejected
with ErrDataTooLarge carrying its length and the limit 16368. -/
theorem compose_spec (getpid typ peerID : Nat) (data : List Nat)
    (hpid : getpid < 4294967296) :
    (data.length ≤ 16368 →
      ComposeIMsg getpid typ peerID data =
        .ok { typ := typ, PeerID := peerID, PID := getpid, Data := data, flags := 0 }) ∧
    (data.length > 16368 →
      ComposeIMsg getpid typ peerID data =
        .error (.errDataTooLarge data.length 16368)) := by
  constructor
  · intro h
    simp only [ComposeIMsg, MaxSizeInBytes, HeaderSizeInBytes]
    rw [if_neg (by omega)]
    rw [Nat.mod_eq_of_lt hpid]
  · intro h
    simp only [ComposeIMsg, MaxSizeInBytes, HeaderSizeInBytes]
    rw [if_pos (by omega)]

/-- Witness for C6: composing with process id 77 stamps 77 into the
message and zeroes the flags. -/
theorem compose_spec_witness :
    ComposeIMsg 77 5 6 [1, 2] = .ok ⟨5, 6, 77, [1, 2], 0⟩ :=
  (compose_spec 77 5 6 [1, 2] (by decide)).1 (by decide)

/-- C7: a well-formed header whose length field equals exactly the
header size decodes successfully to a message with an empty payload, and
no byte beyond the header is consumed, whatever follows it. -/
theorem read_header_only (bo : ByteOrder) (hdrBytes rest : List Nat)
    (hlen : hdrBytes.length = 16)
    (hL : (parseHeader bo hdrBytes).Length = 16) :
    ReadIMsg bo (hdrBytes ++ rest) =
      .ok { typ := (parseHeader bo hdrBytes).typ
            PeerID := (parseHeader bo hdrBytes).PeerID
            PID := (parseHeader bo hdrBytes).PID
            Data := []
            flags := (parseHeader bo hdrBytes).Flags } := by
  simp only [ReadIMsg, HeaderSizeInBytes, MaxSizeInBytes]
  rw [readFull_exact _ _ _ hlen]
  dsimp only
  rw [hL]
  rw [if_neg (by omega), if_neg (by omega)]

/-- Witness for C7: a concrete header with length sixteen decodes to an
empty-payload message and ignores the two trailing bytes. -/
theorem read_header_only_witness :
    ReadIMsg .little [7, 0, 0, 0, 16, 0, 1, 0, 2, 0, 0, 0, 3, 0, 0, 0, 9, 9] =
      .ok ⟨7, 2, 3, [], 1⟩ := by
  have h := read_header_only .little
    [7, 0, 0, 0, 16, 0, 1, 0, 2, 0, 0, 0, 3, 0, 0, 0] [9, 9]
    (by decide) (by decide)
  simpa [parseHeader, getUInt16, getUInt32] using h

/-- C8: decoding an in-memory buffer through UnmarshalBinary is the same
function as decoding it through ReadIMsg over a reader on that buffer:
the same message on success and the same error on failure. -/
theorem unmarshal_binary_eq_read (bo : ByteOrder) (im : IMsg) (data : List Nat) :
    im.UnmarshalBinary bo data = ReadIMsg bo data := by
  unfold IMsg.UnmarshalBinary
  cases h : ReadIMsg bo data with
  | error e => rfl
  | ok im2 => cases im2; rfl

/-- C9: when the source ends before the sixteen header bytes are read,
ReadIMsg propagates the reader's own failure unchanged, end-of-stream
when nothing was read and unexpected end-of-stream after a partial read,
and returns no message. -/
theorem read_header_failure (bo : ByteOrder) (src : List Nat) (h : src.length < 16) :
    ReadIMsg bo src =
      .error (.streamFailure
        (if src.length = 0 then StreamError.eof else StreamError.unexpectedEOF)) := by
  simp only [ReadIMsg, readFull, HeaderSizeInBytes]
  rw [if_neg (by omega)]
  by_cases h0 : src.length = 0
  · rw [if_pos h0, if_pos h0]
  · rw [if_neg h0, if_neg h0]

/-- Witness for C9: three header bytes produce the unexpected
end-of-stream failure untouched. -/
theorem read_header_failure_witness :
    ReadIMsg .big [1, 2, 3] = .error (.streamFailure .unexpectedEOF) := by
  have h := read_header_failure .big [1, 2, 3] (by decide)
  simpa using h

/-- C10: MarshalBinary never fails on a message whose total length is at
most the maximum size: once the single size check passes, bytes are
always returned. -/
theorem marshal_total (bo : ByteOrder) (im : IMsg) (h : im.Len ≤ MaxSizeInBytes) :
    ∃ bs, im.MarshalBinary bo = .ok bs := by
  simp only [IMsg.MarshalBinary]
  rw [if_neg (by omega)]
  exact ⟨_, rfl⟩

/-- Witness for C10: the empty message is marshalled successfully. -/
theorem marshal_total_witness :
    ∃ bs, IMsg.MarshalBinary .little ⟨0, 0, 0, [], 0⟩ = .ok bs :=
  marshal_total .little ⟨0, 0, 0, [], 0⟩ (by decide)

end GoImsg
